import Mathlib

/-!
Verification development for the win-iso-downloader repository.

Two source files are embedded:
  * `download_esd.py` — the Catalog Resolver: check tools, download the
    catalog CAB to a temporary file, extract `products.xml` via a chain of
    four extraction methods, parse it, and return the first matching record.
  * `download_iso.py` — the Heuristic Resolver: probe API endpoints,
    guess CDN path patterns, and fall back to a hardcoded redirect link.

Machine bytes are modelled as `Nat` (byte values), byte buffers as
`List Nat`.  Python exceptions are modelled with `Except`; code that
catches every exception is modelled as total.  External effects (tool
invocations, network probes, XML parsing) are supplied as environment
inputs, each documented where it is declared.
-/

set_option autoImplicit false

namespace WinIso

universe u

variable {α : Type u} [DecidableEq α]

/-- Boolean test that `pat` is an initial segment of `data`
(used to model Python `bytes.find` / substring search). -/
def leadsWith : List α → List α → Bool
  | [], _ => true
  | _ :: _, [] => false
  | p :: ps, d :: ds => decide (p = d) && leadsWith ps ds

/-- Index of the first position of `data` at which `pat` starts, if any.
Models Python `bytes.find(pat)` restricted to existence (the `-1` result
is modelled as `none`). -/
def scanFind (pat : List α) : List α → Option Nat
  | [] => if leadsWith pat ([] : List α) then some 0 else none
  | d :: rest =>
    if leadsWith pat (d :: rest) then some 0
    else (scanFind pat rest).map (· + 1)

/-- Models Python `data.find(pat, start)`: the least absolute index
`≥ start` at which `pat` occurs in `data`. -/
def findFromIdx (pat data : List α) (start : Nat) : Option Nat :=
  (scanFind pat (data.drop start)).map (· + start)

/-- Specification-side predicate: `pat` occurs in `data` at index `i`. -/
def occursAt (pat data : List α) (i : Nat) : Prop :=
  leadsWith pat (data.drop i) = true

instance occursAtDecidable (pat data : List α) (i : Nat) :
    Decidable (occursAt pat data i) := by
  unfold occursAt; infer_instance

/-- Substring containment on strings, modelling the Python `in` operator
(`'.iso' in resp.url`). -/
def strContains (needle hay : String) : Bool :=
  (scanFind needle.data hay.data).isSome

/-! ## download_esd.py -/

/-- Byte sequence of the start marker `<?xml` searched for by the raw
CAB scan (`cab_data.find(b'<?xml')`). -/
def xmlMarkerBytes : List Nat := [60, 63, 120, 109, 108]

/-- Byte sequence of the end marker `</Products>`
(`cab_data.find(b'</Products>', xml_start)`). -/
def productsEndBytes : List Nat := [60, 47, 80, 114, 111, 100, 117, 99, 116, 115, 62]

/-- The raw-scan fallback of `extract_xml_from_cab` (lines 99–107 of
`download_esd.py`): find the first `<?xml`, then the first `</Products>`
from that position on, and slice the buffer from the start marker through
the end of the end marker.  The Python code decodes the slice as UTF-8;
the scan itself is byte-level and is modelled on bytes. -/
def rawScan (cab_data : List Nat) : Option (List Nat) :=
  match findFromIdx xmlMarkerBytes cab_data 0 with
  | none => none
  | some xml_start =>
    match findFromIdx productsEndBytes cab_data xml_start with
    | none => none
    | some pos =>
      some ((cab_data.drop xml_start).take (pos + productsEndBytes.length - xml_start))

/-- Which external tools the host has, as detected by the `which` probes
in `check_tools` (`cabextract`, `tar`, `wimlib-imagex`).  `7z` is not
probed by `check_tools`; its availability shows up only as the outcome of
its invocation inside `extract_xml_from_cab`. -/
structure Tools where
  cabextract : Bool
  tar : Bool
  wimlib : Bool
  deriving DecidableEq

/-- The two fatal exits of `check_tools` (`sys.exit(1)` with a message). -/
inductive CheckError where
  | missingCabTool
  | missingWimlib
  deriving DecidableEq

/-- Embedding of `check_tools` (lines 19–47): exits fatally when neither
`cabextract` nor `tar` is installed, then when `wimlib-imagex` is
missing; otherwise reports success. -/
def check_tools (t : Tools) : Except CheckError Unit :=
  if !t.cabextract && !t.tar then .error .missingCabTool
  else if !t.wimlib then .error .missingWimlib
  else .ok ()

/-- Outcome of invoking one external extraction tool on the CAB, an
environment input.  `notFound` models `FileNotFoundError` (tool not
installed), `failed` models `subprocess.CalledProcessError`, `noOutput`
models a run after which `products.xml` does not exist in the temporary
directory, and `output c` models a run that produced `products.xml` with
contents `c`. -/
inductive ToolResult where
  | notFound
  | failed
  | noOutput
  | output (content : List Nat)
  deriving DecidableEq

/-- Whether a tool invocation produced a `products.xml`. -/
def hasOutput : ToolResult → Bool
  | .output _ => true
  | _ => false

/-- Embedding of `extract_xml_from_cab` (lines 63–109).  Each of the
three tool attempts (`cabextract`, `tar`, `7z`) is wrapped in
`try/except (CalledProcessError, FileNotFoundError): pass`, and a run
whose output file is absent also falls through, so every non-`output`
outcome advances to the next method; the raw byte scan is the last
resort, and its failure raises `ValueError` (modelled as `.error ()`). -/
def extract_xml_from_cab (cabextractRes tarRes sevenZipRes : ToolResult)
    (cab_data : List Nat) : Except Unit (List Nat) :=
  match cabextractRes with
  | .output c => .ok c
  | _ =>
    match tarRes with
    | .output c => .ok c
    | _ =>
      match sevenZipRes with
      | .output c => .ok c
      | _ =>
        match rawScan cab_data with
        | some xml => .ok xml
        | none => .error ()

/-- One `<File>` element of the parsed catalog, with the sub-elements the
matching loop of `main` reads.  A `none` field models a missing
sub-element (`file_elem.find(...)` returning `None`).  `size` is the
integer value of the `Size` element when present. -/
structure FileEntry where
  languageCode : Option String
  edition : Option String
  architecture : Option String
  filePath : Option String
  size : Option Int
  deriving DecidableEq

/-- The (language, edition, architecture) filter.  `main` hardcodes the
query `("en-us", "EnterpriseN", "x64")`; the matching loop is embedded
with the three literals as a parameter. -/
structure MatchQuery where
  lang : String
  edition : String
  arch : String
  deriving DecidableEq

/-- The hardcoded query of `main` (lines 140–142). -/
def enterpriseQuery : MatchQuery := ⟨"en-us", "EnterpriseN", "x64"⟩

/-- The `found` dictionary built by `main` (lines 144–147): the `FilePath`
text and the `Size` value divided by `1024**3` (Python true division,
modelled over `ℚ`). -/
structure Found where
  url : String
  size : ℚ
  deriving DecidableEq

/-- The condition of the `if` at lines 140–142: each of the three
elements is present and its text equals the corresponding literal
(case-sensitive string equality). -/
def matchesQuery (q : MatchQuery) (e : FileEntry) : Bool :=
  e.languageCode == some q.lang &&
  e.edition == some q.edition &&
  e.architecture == some q.arch

/-- Errors of the catalog `main` path. `attributeError` models the
uncaught Python `AttributeError` raised by `file_elem.find("FilePath").text`
or `file_elem.find("Size").text` when the element is missing on a
matching entry. -/
inductive MainError where
  | toolCheck (e : CheckError)
  | notExtractable
  | parseError
  | attributeError
  | noMatch
  deriving DecidableEq

/-- Embedding of the matching loop of `main` (lines 134–148): scan the
`<File>` entries in document order; the first entry passing
`matchesQuery` ends the loop, and `found` is built from its `FilePath`
and `Size` sub-elements — reading either of them on the matching entry
when it is absent raises `AttributeError`.  `ok none` models falling off
the loop with `found is None`. -/
def findFound (q : MatchQuery) : List FileEntry → Except MainError (Option Found)
  | [] => .ok none
  | e :: rest =>
    if matchesQuery q e then
      match e.filePath with
      | none => .error .attributeError
      | some u =>
        match e.size with
        | none => .error .attributeError
        | some n => .ok (some ⟨u, (n : ℚ) / (1024 ^ 3)⟩)
    else findFound q rest

/-- Environment of one run of the catalog resolver: tool availability,
the outcome of each extraction-tool invocation, the raw bytes of the
downloaded CAB, and the XML parser (`ET.fromstring` + `findall(".//File")`)
as a function from document bytes to entries or a parse error. -/
structure EsdEnv where
  tools : Tools
  cabextractRes : ToolResult
  tarRes : ToolResult
  sevenZipRes : ToolResult
  cab_data : List Nat
  parse : List Nat → Except Unit (List FileEntry)

/-- Filesystem events on the temporary catalog archive: creation by
`tempfile.NamedTemporaryFile(delete=False)` + `download_file`, and
deletion by the `os.unlink(cab_path)` in the `finally` block. -/
inductive Ev where
  | createTemp
  | unlinkTemp
  deriving DecidableEq

/-- Whether the temporary file exists after a trace of events, starting
from an empty filesystem. -/
def tempExistsAfter (tr : List Ev) : Bool :=
  tr.foldl (fun _ e => match e with | .createTemp => true | .unlinkTemp => false) false

/-- Embedding of the resolver portion of `main` (lines 112–152):
`check_tools` first (its failure exits before any download); then the
CAB is downloaded into the temporary file (`createTemp`); then
`extract_xml_from_cab` and `ET.fromstring` run inside `try`, and the
`finally` block unlinks the temporary file (`unlinkTemp`) whether they
succeeded or raised; then the matching loop runs and a missing match
exits fatally.  The returned trace records what happened to the
temporary file. -/
def resolverRun (env : EsdEnv) (q : MatchQuery) :
    Except MainError Found × List Ev :=
  match check_tools env.tools with
  | .error e => (.error (.toolCheck e), [])
  | .ok _ =>
    match extract_xml_from_cab env.cabextractRes env.tarRes env.sevenZipRes env.cab_data with
    | .error _ => (.error .notExtractable, [.createTemp, .unlinkTemp])
    | .ok xml =>
      match env.parse xml with
      | .error _ => (.error .parseError, [.createTemp, .unlinkTemp])
      | .ok entries =>
        match findFound q entries with
        | .error e => (.error e, [.createTemp, .unlinkTemp])
        | .ok none => (.error .noMatch, [.createTemp, .unlinkTemp])
        | .ok (some f) => (.ok f, [.createTemp, .unlinkTemp])

/-- Local filesystem as a map from file name to contents. -/
def FS : Type := String → Option (List Nat)

/-- Embedding of the download guard of `main` (lines 156–162): when
`win.esd` already exists the download is skipped and the filesystem is
untouched; otherwise the resolved URL is fetched (`remote` gives the
bytes the transfer would produce) and written to `win.esd`. -/
def esdDownloadStep (fs : FS) (resolvedUrl : String)
    (remote : String → List Nat) : FS :=
  match fs "win.esd" with
  | some _ => fs
  | none => fun name => if name = "win.esd" then some (remote resolvedUrl) else fs name

/-! ## download_iso.py -/

/-- What the body-scanning of a Stage 1 response yields: the results of
`re.findall` for direct `.iso` URLs and for `LinkID=(\d+)` identifiers,
in order of appearance. -/
structure ApiContent where
  isoUrls : List String
  linkids : List String
  deriving DecidableEq

/-- Network environment of the heuristic resolver.  `fetch` models the
GET of an API endpoint (lines 28–35), already scanned into its candidate
lists; `head` models a HEAD `urlopen` returning the response status and
the resolved `resp.url`.  Every raised exception or timeout is `.error ()`. -/
structure NetEnv where
  fetch : String → Except Unit ApiContent
  head : String → Except Unit (Nat × String)

/-- The fixed Stage 1 endpoint list (lines 20–24). -/
def api_endpoints : List String :=
  ["https://www.microsoft.com/en-us/evalcenter/api/products/getproducts",
   "https://www.microsoft.com/en-us/api/controls/contentinclude/html?pageId=cfa0e580-a81e-4a4b-a846-7b21bf4e2e5b&host=www.microsoft.com&segments=software-download,windows10ISO",
   "https://www.microsoft.com/en-us/software-download/windows10ISO/ajax"]

/-- The fixed Stage 2 base-path list (lines 65–69). -/
def base_urls : List String :=
  ["https://software-static.download.prss.microsoft.com/sg/download/888969d5-f34g-4e03-ac9d-1f9786c66749/",
   "https://software-static.download.prss.microsoft.com/dbazure/",
   "https://software.download.prss.microsoft.com/sg/"]

/-- The fixed Stage 2 file-name list (lines 71–77). -/
def iso_names : List String :=
  ["19045.2006.220908-0225.22h2_release_svc_refresh_CLIENTENTERPRISEEVAL_OEMRET_x64FRE_en-us.iso",
   "Win10_22H2_EnterpriseEval_x64.iso",
   "Win10_22H2_English_x64.iso",
   "Win10_22H2_English_x64v1.iso",
   "SERVER_EVAL_x64FRE_en-us.iso"]

/-- The cartesian product walked by the nested loops at lines 79–80, in
base-path-major order. -/
def cdnPairs : List (String × String) :=
  base_urls.flatMap (fun b => iso_names.map (fun n => (b, n)))

/-- The Stage 3 hardcoded fallback link (line 93). -/
def fallbackUrl : String :=
  "https://go.microsoft.com/fwlink/?LinkID=2195280&clcid=0x409&culture=en-us&country=US"

/-- The indirect redirect URL built from a link identifier (line 47). -/
def linkUrl (id : String) : String :=
  "https://go.microsoft.com/fwlink/?LinkID=" ++ id

/-- Embedding of the LinkID loop (lines 46–58): for each identifier,
HEAD-probe its redirect URL; a raised probe continues with the next
identifier; when the resolved location contains `.iso`, return the
constructed redirect URL itself. -/
def tryLinkids (env : NetEnv) : List String → Option String
  | [] => none
  | id :: rest =>
    match env.head (linkUrl id) with
    | .error _ => tryLinkids env rest
    | .ok (_, loc) =>
      if strContains ".iso" loc then some (linkUrl id) else tryLinkids env rest

/-- Embedding of the Stage 1 endpoint loop (lines 26–60): fetch each
endpoint in order (any exception skips to the next endpoint); on
success return the first direct `.iso` URL if any, otherwise try the
LinkID candidates; if neither yields a URL, continue with the next
endpoint. -/
def stage1 (env : NetEnv) : List String → Option String
  | [] => none
  | ep :: rest =>
    match env.fetch ep with
    | .error _ => stage1 env rest
    | .ok c =>
      match c.isoUrls with
      | u :: _ => some u
      | [] =>
        match tryLinkids env c.linkids with
        | some u => some u
        | none => stage1 env rest

/-- Embedding of the Stage 2 loop (lines 79–89): HEAD-probe each
base+name URL in order; a raised probe continues; the first probe whose
status is `200` returns that URL. -/
def tryCdnPairs (env : NetEnv) : List (String × String) → Option String
  | [] => none
  | (b, n) :: rest =>
    match env.head (b ++ n) with
    | .error _ => tryCdnPairs env rest
    | .ok (st, _) => if st = 200 then some (b ++ n) else tryCdnPairs env rest

/-- A Stage 2 probe success on a pair: the HEAD probe returned status
`200` (with some resolved location). -/
def probeOk (env : NetEnv) (p : String × String) : Prop :=
  ∃ loc, env.head (p.1 ++ p.2) = .ok (200, loc)

/-- Embedding of `get_windows_iso_url` (lines 11–93): Stage 1, then
Stage 2, then the hardcoded fallback.  Every network failure inside is
caught in the stages, so the function is total and always yields a URL. -/
def get_windows_iso_url (env : NetEnv) : String :=
  match stage1 env api_endpoints with
  | some u => u
  | none =>
    match tryCdnPairs env cdnPairs with
    | some u => u
    | none => fallbackUrl

/-! ## Lemmas about the substring search -/

theorem scanFind_eq_of (pat : List α) :
    ∀ (i : Nat) (data : List α), occursAt pat data i →
      (∀ j < i, ¬occursAt pat data j) → scanFind pat data = some i := by
  intro i
  induction i with
  | zero =>
    intro data hocc _
    unfold occursAt at hocc
    simp only [List.drop_zero] at hocc
    cases data with
    | nil => simp [scanFind, hocc]
    | cons d rest => simp [scanFind, hocc]
  | succ i ih =>
    intro data hocc hmin
    cases data with
    | nil =>
      exact absurd hocc (by simpa [occursAt] using hmin 0 (Nat.succ_pos i))
    | cons d rest =>
      have h0 : ¬ (leadsWith pat (d :: rest) = true) := by
        simpa [occursAt] using hmin 0 (Nat.succ_pos i)
      have hocc' : occursAt pat rest i := by
        simpa [occursAt] using hocc
      have hmin' : ∀ j < i, ¬occursAt pat rest j := by
        intro j hj
        have := hmin (j + 1) (by omega)
        simpa [occursAt] using this
      simp [scanFind, h0, ih rest hocc' hmin']

theorem occursAt_drop (pat data : List α) (s j : Nat) :
    occursAt pat (data.drop s) j ↔ occursAt pat data (s + j) := by
  unfold occursAt
  rw [List.drop_drop]

theorem findFromIdx_eq_of (pat data : List α) (start i : Nat)
    (hge : start ≤ i) (hocc : occursAt pat data i)
    (hmin : ∀ j < i, start ≤ j → ¬occursAt pat data j) :
    findFromIdx pat data start = some i := by
  have hocc' : occursAt pat (data.drop start) (i - start) := by
    rw [occursAt_drop]
    have : start + (i - start) = i := by omega
    rwa [this]
  have hmin' : ∀ j < i - start, ¬occursAt pat (data.drop start) j := by
    intro j hj hcon
    rw [occursAt_drop] at hcon
    exact hmin (start + j) (by omega) (by omega) hcon
  unfold findFromIdx
  rw [scanFind_eq_of pat (i - start) (data.drop start) hocc' hmin']
  simp
  omega

theorem occursAt_length_le (pat data : List α) (i : Nat)
    (hne : pat ≠ []) (h : occursAt pat data i) : i + pat.length ≤ data.length := by
  unfold occursAt at h
  have hlen : pat.length ≤ (data.drop i).length := by
    clear * - h
    induction pat generalizing data i with
    | nil => simp
    | cons p ps ih =>
      cases hd : data.drop i with
      | nil => rw [hd] at h; simp [leadsWith] at h
      | cons d rest =>
        rw [hd] at h
        simp only [leadsWith, Bool.and_eq_true] at h
        have := ih rest 0 (by simpa using h.2)
        simp only [List.drop_zero] at this
        simp [hd, List.length_cons]
        omega
  rw [List.length_drop] at hlen
  -- pat.length ≤ data.length - i; also need i ≤ data.length
  by_cases hi : i ≤ data.length
  · omega
  · rw [List.drop_eq_nil_of_le (by omega)] at h
    cases pat with
    | nil => exact absurd rfl hne
    | cons p ps => simp [leadsWith] at h

/-! ## Helper lemmas for the catalog matching loop -/

theorem findFound_append (q : MatchQuery) (pre : List FileEntry) (e : FileEntry)
    (post : List FileEntry) (hpre : ∀ x ∈ pre, matchesQuery q x = false) :
    findFound q (pre ++ e :: post) = findFound q (e :: post) := by
  induction pre with
  | nil => rfl
  | cons a as ih =>
    have ha := hpre a (List.mem_cons_self a as)
    have ih2 := ih (fun x hx => hpre x (List.mem_cons_of_mem a hx))
    simpa [findFound, ha] using ih2

/-! ## Claims about download_esd.py -/

/-- Claim C8: given a byte buffer in which the start marker occurs first
at index `s` and the end marker occurs first at index `e ≥ s` among
positions from `s` on, the raw byte scan returns exactly the slice from
`s` through the end of the end marker inclusive, and that slice together
with the discarded bytes before and after reassembles the buffer. -/
theorem raw_scan_extracts_delimited_fragment (data : List Nat) (s e : Nat)
    (hs : occursAt xmlMarkerBytes data s)
    (hsmin : ∀ j < s, ¬occursAt xmlMarkerBytes data j)
    (hse : s ≤ e)
    (he : occursAt productsEndBytes data e)
    (hemin : ∀ j < e, s ≤ j → ¬occursAt productsEndBytes data j) :
    rawScan data = some ((data.drop s).take (e + productsEndBytes.length - s)) ∧
    data = data.take s ++ ((data.drop s).take (e + productsEndBytes.length - s) ++
      data.drop (e + productsEndBytes.length)) := by
  have h1 : findFromIdx xmlMarkerBytes data 0 = some s :=
    findFromIdx_eq_of _ _ 0 s (Nat.zero_le s) hs (fun j hj _ => hsmin j hj)
  have h2 : findFromIdx productsEndBytes data s = some e :=
    findFromIdx_eq_of _ _ s e hse he (fun j hj hj2 => hemin j hj hj2)
  constructor
  · unfold rawScan
    rw [h1]
    dsimp only
    rw [h2]
  · conv_lhs => rw [← List.take_append_drop s data]
    congr 1
    conv_lhs =>
      rw [← List.take_append_drop (e + productsEndBytes.length - s) (data.drop s)]
    congr 1
    rw [List.drop_drop]
    congr 1
    omega

/-- Concrete buffer for the raw-scan witness: one garbage byte, the
start marker, two payload bytes, the end marker, one trailing byte. -/
def c8data : List Nat :=
  [9] ++ xmlMarkerBytes ++ [1, 2] ++ productsEndBytes ++ [3]

theorem raw_scan_extracts_delimited_fragment_witness :
    rawScan c8data = some ((c8data.drop 1).take (8 + productsEndBytes.length - 1)) ∧
    c8data = c8data.take 1 ++ ((c8data.drop 1).take (8 + productsEndBytes.length - 1) ++
      c8data.drop (8 + productsEndBytes.length)) :=
  raw_scan_extracts_delimited_fragment c8data 1 8 (by decide) (by decide) (by decide)
    (by decide) (by decide)

/-- Claim C7: the matching loop returns the first entry in document
order whose three fields exactly equal the query (case-sensitive), with
its URL and scaled size; later duplicates are never consulted. -/
theorem resolver_returns_first_match (q : MatchQuery) (pre post : List FileEntry)
    (e : FileEntry) (u : String) (n : Int)
    (hpre : ∀ x ∈ pre, matchesQuery q x = false)
    (he : matchesQuery q e = true)
    (hu : e.filePath = some u) (hn : e.size = some n) :
    findFound q (pre ++ e :: post) = .ok (some ⟨u, (n : ℚ) / (1024 ^ 3)⟩) := by
  rw [findFound_append q pre e post hpre]
  simp [findFound, he, hu, hn]

/-- Entry before the first match in the C7 witness: differs from the
query only by letter case, so case-sensitive matching must reject it. -/
def c7pre : List FileEntry :=
  [⟨some "EN-US", some "EnterpriseN", some "x64", some "https://a/1.esd", some 1⟩]

/-- The first exactly-matching entry in the C7 witness. -/
def c7e : FileEntry :=
  ⟨some "en-us", some "EnterpriseN", some "x64", some "https://a/2.esd", some 2147483648⟩

/-- A later duplicate of the C7 witness match with a different URL. -/
def c7post : List FileEntry :=
  [⟨some "en-us", some "EnterpriseN", some "x64", some "https://a/3.esd", some 3⟩]

theorem resolver_returns_first_match_witness :
    findFound enterpriseQuery (c7pre ++ c7e :: c7post) =
      .ok (some ⟨"https://a/2.esd", ((2147483648 : Int) : ℚ) / (1024 ^ 3)⟩) :=
  resolver_returns_first_match enterpriseQuery c7pre c7post c7e _ _
    (by decide) (by decide) rfl rfl

/-- The single catalog record of the end-to-end scenario in the spec. -/
def specEntry : FileEntry :=
  ⟨some "en-us", some "EnterpriseN", some "x64", some "https://example/x.esd",
   some 4294967296⟩

/-- Claim C2 counterexample: on the spec's own end-to-end catalog the
resolver returns size `4` (the declared size divided by `1024 ^ 3`
inside the matching loop), not the unscaled `4294967296`. -/
theorem size_scaled_inside_resolver_counterexample :
    findFound enterpriseQuery [specEntry] =
      .ok (some ⟨"https://example/x.esd", 4⟩) ∧
    (4 : ℚ) ≠ (4294967296 : ℚ) := by
  constructor
  · simp [findFound, specEntry, enterpriseQuery, matchesQuery]
    norm_num
  · norm_num

/-- Claim C2 amended: the resolver returns the matching record's URL
together with its declared size divided by `1024 ^ 3` (scaling to GiB
happens inside the resolver, before the presentation boundary). -/
theorem resolver_scales_size_to_gib (q : MatchQuery) (e : FileEntry)
    (rest : List FileEntry) (u : String) (n : Int)
    (he : matchesQuery q e = true) (hu : e.filePath = some u)
    (hn : e.size = some n) :
    findFound q (e :: rest) = .ok (some ⟨u, (n : ℚ) / (1024 ^ 3)⟩) := by
  simp [findFound, he, hu, hn]

theorem resolver_scales_size_to_gib_witness :
    findFound enterpriseQuery
      [⟨some "en-us", some "EnterpriseN", some "x64", some "https://example/y.esd",
        some 2147483648⟩] =
      .ok (some ⟨"https://example/y.esd", ((2147483648 : Int) : ℚ) / (1024 ^ 3)⟩) :=
  resolver_scales_size_to_gib enterpriseQuery _ [] _ _ (by decide) rfl rfl

/-- Claim C3: an entry that matches the query on the three checked
fields but has no `FilePath` element makes the loop raise
`AttributeError` instead of skipping it, while an entry missing one of
the three checked fields is indeed skipped silently. -/
theorem missing_filepath_raises_not_skips :
    findFound enterpriseQuery
      [⟨some "en-us", some "EnterpriseN", some "x64", none, some 5⟩] =
      .error .attributeError ∧
    findFound enterpriseQuery
      [⟨some "en-us", some "EnterpriseN", none, some "https://a/x.esd", some 5⟩] =
      .ok none := by
  exact ⟨rfl, rfl⟩

/-- Environment of the C1 counterexample: neither `cabextract` nor `tar`
is installed, but a `7z` invocation would succeed and produce the
document. -/
def c1env : EsdEnv :=
  ⟨⟨false, false, true⟩, .notFound, .notFound, .output [60], [], fun _ => .ok []⟩

/-- Claim C1 counterexample: with `cabextract` and `tar` both absent the
program exits fatally in `check_tools` — before the extraction chain
runs at all — even though the third method would have succeeded. -/
theorem fatal_exit_with_untried_methods :
    resolverRun c1env enterpriseQuery = (.error (.toolCheck .missingCabTool), []) ∧
    extract_xml_from_cab c1env.cabextractRes c1env.tarRes c1env.sevenZipRes
      c1env.cab_data = .ok [60] :=
  ⟨rfl, rfl⟩

/-- Claim C1 amended: inside `extract_xml_from_cab` the chain does reach
methods 3 and 4 when methods 1 and 2 are unavailable, erring only when
both remaining methods also fail; but `check_tools` exits fatally
whenever both `cabextract` and `tar` are missing, before extraction. -/
theorem extraction_chain_tries_all_before_error (szRes : ToolResult)
    (d : List Nat) (w : Bool) :
    (extract_xml_from_cab .notFound .notFound szRes d = .error () ↔
      hasOutput szRes = false ∧ rawScan d = none) ∧
    check_tools ⟨false, false, w⟩ = .error .missingCabTool := by
  constructor
  · cases szRes <;>
      simp only [extract_xml_from_cab, hasOutput] <;>
      cases h : rawScan d <;> simp [h]
  · rfl

theorem extraction_chain_tries_all_before_error_witness :
    (extract_xml_from_cab .notFound .notFound .failed [1, 2] = .error () ↔
      hasOutput .failed = false ∧ rawScan [1, 2] = none) ∧
    check_tools ⟨false, false, true⟩ = .error .missingCabTool :=
  extraction_chain_tries_all_before_error .failed [1, 2] true

/-- Claim C4: whenever the run passes `check_tools` (and therefore
downloads the catalog archive into the temporary file), the trace shows
the temporary file being created, and it is absent at the end of the
run on every path — extraction failure, parse failure, match error,
no-match, and success. -/
theorem temp_file_absent_after_resolver (env : EsdEnv) (q : MatchQuery)
    (hdl : check_tools env.tools = .ok ()) :
    Ev.createTemp ∈ (resolverRun env q).2 ∧
    tempExistsAfter (resolverRun env q).2 = false := by
  have h2 : (resolverRun env q).2 = [Ev.createTemp, Ev.unlinkTemp] := by
    simp only [resolverRun, hdl]
    cases extract_xml_from_cab env.cabextractRes env.tarRes env.sevenZipRes env.cab_data with
    | error e => rfl
    | ok xml =>
      dsimp only
      cases env.parse xml with
      | error e => rfl
      | ok entries =>
        dsimp only
        cases findFound q entries with
        | error e => rfl
        | ok o => cases o <;> rfl
  rw [h2]
  exact ⟨by decide, rfl⟩

/-- Fully-equipped environment for the C4 witness. -/
def c4env : EsdEnv :=
  ⟨⟨true, true, true⟩, .output [1], .notFound, .notFound, [], fun _ => .ok []⟩

theorem temp_file_absent_after_resolver_witness :
    Ev.createTemp ∈ (resolverRun c4env enterpriseQuery).2 ∧
    tempExistsAfter (resolverRun c4env enterpriseQuery).2 = false :=
  temp_file_absent_after_resolver c4env enterpriseQuery rfl

/-- Claim C9: when `win.esd` already exists, the download step leaves
the whole filesystem — and in particular the existing contents of
`win.esd` — unchanged, for every resolved URL and every remote. -/
theorem existing_esd_skips_download (fs : FS) (url : String)
    (remote : String → List Nat) (c : List Nat)
    (h : fs "win.esd" = some c) :
    esdDownloadStep fs url remote = fs ∧
    esdDownloadStep fs url remote "win.esd" = some c := by
  unfold esdDownloadStep
  rw [h]
  exact ⟨rfl, h⟩

/-- Filesystem of the C9 witness: `win.esd` present with stale bytes. -/
def c9fs : FS := fun name => if name = "win.esd" then some [7, 7] else none

theorem existing_esd_skips_download_witness :
    esdDownloadStep c9fs "https://example/z.esd" (fun _ => [1]) = c9fs ∧
    esdDownloadStep c9fs "https://example/z.esd" (fun _ => [1]) "win.esd" = some [7, 7] :=
  existing_esd_skips_download c9fs "https://example/z.esd" (fun _ => [1]) [7, 7] rfl

/-! ## Helper lemmas for the heuristic resolver -/

theorem stage1_none_of_fetch_fail (env : NetEnv)
    (hf : ∀ p, env.fetch p = .error ()) :
    ∀ l, stage1 env l = none := by
  intro l
  induction l with
  | nil => rfl
  | cons ep rest ih => simp [stage1, hf ep, ih]

theorem tryCdnPairs_none_of_head_fail (env : NetEnv)
    (hh : ∀ u, env.head u = .error ()) :
    ∀ l, tryCdnPairs env l = none := by
  intro l
  induction l with
  | nil => rfl
  | cons p rest ih =>
    obtain ⟨b, n⟩ := p
    simp [tryCdnPairs, hh, ih]

theorem tryCdnPairs_first_success (env : NetEnv) (pre post : List (String × String))
    (b n : String)
    (hpre : ∀ p ∈ pre, ¬probeOk env p)
    (hp : probeOk env (b, n)) :
    tryCdnPairs env (pre ++ (b, n) :: post) = some (b ++ n) := by
  induction pre with
  | nil =>
    obtain ⟨loc, hloc⟩ := hp
    simp [tryCdnPairs, hloc]
  | cons a as ih =>
    obtain ⟨ab, an⟩ := a
    have ha : ¬probeOk env (ab, an) := hpre (ab, an) (List.mem_cons_self _ _)
    have hrest := ih (fun p hp2 => hpre p (List.mem_cons_of_mem _ hp2))
    cases hhd : env.head (ab ++ an) with
    | error e => simpa [tryCdnPairs, hhd] using hrest
    | ok pr =>
      obtain ⟨st, loc⟩ := pr
      have hst : ¬(st = 200) := by
        intro hcon
        subst hcon
        exact ha ⟨loc, hhd⟩
      simpa [tryCdnPairs, hhd, hst] using hrest

/-- None of the Stage 2 candidate URLs coincides with the Stage 3
fallback link. -/
theorem cdnPairs_ne_fallback : ∀ p ∈ cdnPairs, p.1 ++ p.2 ≠ fallbackUrl := by
  decide

/-! ## Claims about download_iso.py -/

/-- Claim C5: the heuristic resolver is total — for every probe
environment it yields some URL — and when every Stage 1 fetch and every
HEAD probe raises (covering timeouts and errors) it returns the
hardcoded Stage 3 fallback link. -/
theorem heuristic_total_and_terminal_fallback :
    (∀ env : NetEnv, ∃ u : String, get_windows_iso_url env = u) ∧
    (∀ env : NetEnv, (∀ p, env.fetch p = .error ()) →
      (∀ u, env.head u = .error ()) →
      get_windows_iso_url env = fallbackUrl) := by
  constructor
  · exact fun env => ⟨_, rfl⟩
  · intro env hf hh
    unfold get_windows_iso_url
    rw [stage1_none_of_fetch_fail env hf, tryCdnPairs_none_of_head_fail env hh]

/-- Environment in which every probe raises. -/
def failEnv : NetEnv := ⟨fun _ => .error (), fun _ => .error ()⟩

theorem heuristic_total_and_terminal_fallback_witness :
    get_windows_iso_url failEnv = fallbackUrl :=
  heuristic_total_and_terminal_fallback.2 failEnv (fun _ => rfl) (fun _ => rfl)

/-- Claim C6: when Stage 1 yields nothing and some pair of the
base-path-major cartesian product probes with status 200, the resolver
returns the first such pair's URL, which is never the Stage 3 fallback
link. -/
theorem stage2_first_success_no_fallback (env : NetEnv)
    (pre post : List (String × String)) (b n : String)
    (h1 : stage1 env api_endpoints = none)
    (henum : cdnPairs = pre ++ (b, n) :: post)
    (hpre : ∀ p ∈ pre, ¬probeOk env p)
    (hp : probeOk env (b, n)) :
    get_windows_iso_url env = b ++ n ∧ b ++ n ≠ fallbackUrl := by
  have hmem : (b, n) ∈ cdnPairs := by
    rw [henum]
    exact List.mem_append_right _ (List.mem_cons_self _ _)
  refine ⟨?_, cdnPairs_ne_fallback (b, n) hmem⟩
  unfold get_windows_iso_url
  rw [h1, henum, tryCdnPairs_first_success env pre post b n hpre hp]

/-- Environment of the C6 witness: Stage 1 fetches all raise, every
HEAD probe answers 200. -/
def c6env : NetEnv := ⟨fun _ => .error (), fun _ => .ok (200, "")⟩

theorem stage2_first_success_no_fallback_witness :
    get_windows_iso_url c6env =
      ("https://software-static.download.prss.microsoft.com/sg/download/888969d5-f34g-4e03-ac9d-1f9786c66749/" ++
       "19045.2006.220908-0225.22h2_release_svc_refresh_CLIENTENTERPRISEEVAL_OEMRET_x64FRE_en-us.iso") ∧
    ("https://software-static.download.prss.microsoft.com/sg/download/888969d5-f34g-4e03-ac9d-1f9786c66749/" ++
     "19045.2006.220908-0225.22h2_release_svc_refresh_CLIENTENTERPRISEEVAL_OEMRET_x64FRE_en-us.iso") ≠ fallbackUrl :=
  stage2_first_success_no_fallback c6env [] cdnPairs.tail _ _ rfl rfl
    (by simp) ⟨"", rfl⟩

/-- Claim C10: when the first Stage 1 endpoint's response carries no
direct `.iso` URL but a link identifier whose HEAD probe resolves to a
location containing `.iso`, the resolver returns the constructed
redirect URL for that identifier, not the resolved location. -/
theorem linkid_returns_redirect_url (env : NetEnv) (id : String)
    (restIds : List String) (st : Nat) (loc : String)
    (hfetch : env.fetch
        "https://www.microsoft.com/en-us/evalcenter/api/products/getproducts" =
        .ok ⟨[], id :: restIds⟩)
    (hhead : env.head (linkUrl id) = .ok (st, loc))
    (hiso : strContains ".iso" loc = true)
    (hne : loc ≠ linkUrl id) :
    get_windows_iso_url env = linkUrl id ∧ get_windows_iso_url env ≠ loc := by
  have hmain : get_windows_iso_url env = linkUrl id := by
    simp [get_windows_iso_url, stage1, api_endpoints, hfetch, tryLinkids, hhead, hiso]
  refine ⟨hmain, ?_⟩
  rw [hmain]
  exact fun hcon => hne hcon.symm

/-- Environment of the C10 witness: every endpoint returns one link
identifier and no direct URL; every HEAD probe redirects to a CDN
`.iso` location. -/
def c10env : NetEnv :=
  ⟨fun _ => .ok ⟨[], ["2195174"]⟩, fun _ => .ok (302, "https://cdn.example/win10.iso")⟩

theorem linkid_returns_redirect_url_witness :
    get_windows_iso_url c10env = linkUrl "2195174" ∧
    get_windows_iso_url c10env ≠ "https://cdn.example/win10.iso" :=
  linkid_returns_redirect_url c10env "2195174" [] 302 "https://cdn.example/win10.iso"
    rfl rfl (by decide) (by decide)

end WinIso
